import Mathlib

/-
Verification of the Sales-Brochure-Generator pipeline
(`brochure_generator.py`, `scraper.py`, `app.py`).

Python strings are embedded as `List Char`; dictionaries that map format
tags to file paths are embedded as association lists (insertion order is
the order the source inserts keys).  External effects — the LLM chat call
made by `create_brochure_text`, the three file renderers, the branding
extraction result, the module-level `BASE_DIR` — are supplied through an
environment record `Env`, and `generate_brochure` additionally returns the
trace of `create_brochure_text` attempts and of `mkdir` calls so that
call-count properties can be stated.  Python exceptions are embedded as
`Except (List Char)`.
-/

namespace Brochure

/-- Decidable equality for embedded Python outcomes (`Except` values). -/
instance exceptDecEq {ε α : Type} [DecidableEq ε] [DecidableEq α] :
    DecidableEq (Except ε α)
  | Except.ok a, Except.ok b =>
    if h : a = b then .isTrue (by rw [h]) else .isFalse (by simp [h])
  | Except.ok _, Except.error _ => .isFalse (by simp)
  | Except.error _, Except.ok _ => .isFalse (by simp)
  | Except.error a, Except.error b =>
    if h : a = b then .isTrue (by rw [h]) else .isFalse (by simp [h])

/-- A `(model_id, provider)` pair, the tuples stored in `FREE_MODELS`
and `FALLBACK_MODEL` in `brochure_generator.py`. -/
structure ModelPack where
  model_id : List Char
  provider : List Char
deriving DecidableEq, Repr

/-- `FALLBACK_MODEL = ("tngtech/deepseek-r1t2-chimera:free", "openrouter")`
(brochure_generator.py line 44). -/
def FALLBACK_MODEL : ModelPack :=
  ⟨"tngtech/deepseek-r1t2-chimera:free".data, "openrouter".data⟩

/-- The external collaborators of `generate_brochure`:
`create_text` is the outcome of `create_brochure_text` for a given model
pack (it wraps the LLM chat calls, so one entry in the attempt trace
corresponds to one `create_brochure_text` invocation and hence to all
`llm_chat` calls of the run); `render_pdf`/`render_docx`/`render_html`
are the side effects of `save_as_pdf`/`save_as_docx`/`save_as_html`
(their returned path is computed by the orchestrator, as in the source
where each returns the `filename` argument unchanged); `branding` is the
pair returned by `extract_logo_and_color url`; `base_dir` is the
module-level `BASE_DIR`. -/
structure Env where
  create_text : ModelPack → Except (List Char) (List Char)
  render_pdf : List Char → Option (List Char) → List Char → Except (List Char) Unit
  render_docx : List Char → Except (List Char) Unit
  render_html : List Char → Option (List Char) → List Char → Except (List Char) Unit
  branding : Option (List Char) × List Char
  base_dir : List Char

/-- The pair `(text, file_paths)` returned by `generate_brochure`. -/
structure GBResult where
  text : List Char
  file_paths : List (List Char × List Char)
deriving DecidableEq, Repr

/-- Result of a `generate_brochure` run together with its effect traces:
`gen_attempts` records each `create_brochure_text` invocation (by model
pack, in order), `mkdir_dirs` records each `Path.mkdir(exist_ok=True)`
call. -/
structure GBOut where
  result : Except (List Char) GBResult
  gen_attempts : List ModelPack
  mkdir_dirs : List (List Char)

/-- The default format list `["pdf", "docx", "html"]`
(brochure_generator.py line 275). -/
def default_formats : List (List Char) := ["pdf".data, "docx".data, "html".data]

/-- `company_name.lower().replace(" ", "_")` (brochure_generator.py
line 307). -/
def normalize_name (company : List Char) : List Char :=
  (company.map Char.toLower).map (fun c => if c = ' ' then '_' else c)

/-- Index of the last `'.'` in a name, `name.rfind('.')` in Python
(`none` when there is no dot). -/
def rfindDot : List Char → Option Nat
  | [] => none
  | c :: cs =>
    match rfindDot cs with
    | some i => some (i + 1)
    | none => if c = '.' then some 0 else none

/-- Python `PurePath.suffix` of a file name: the substring from the last
dot, provided that dot is neither the first nor the last character;
otherwise the empty string. -/
def path_suffix (name : List Char) : List Char :=
  match rfindDot name with
  | some i => if 0 < i ∧ i < name.length - 1 then name.drop i else []
  | none => []

/-- Python `PurePath.with_suffix` on a file name: drop the existing
suffix (if any) and append the new one.  The call sites in the source
always pass a well-formed suffix such as `".pdf"`, so the validation
branch of the library code is not reached. -/
def with_suffix (name suffix : List Char) : List Char :=
  if path_suffix name = [] then name ++ suffix
  else name.take (name.length - (path_suffix name).length) ++ suffix

/-- The text-acquisition block of `generate_brochure`
(brochure_generator.py lines 287–296): reuse `precomputed_text` when
supplied; otherwise try `create_brochure_text` with the caller's model
pack and, if that raises, retry exactly once with `FALLBACK_MODEL`.
Returns the outcome together with the list of `create_brochure_text`
attempts, in order. -/
def acquire_text (env : Env) (model_pack : ModelPack)
    (precomputed_text : Option (List Char)) :
    Except (List Char) (List Char) × List ModelPack :=
  match precomputed_text with
  | some t => (Except.ok t, [])
  | none =>
    match env.create_text model_pack with
    | Except.ok t => (Except.ok t, [model_pack])
    | Except.error _ =>
      match env.create_text FALLBACK_MODEL with
      | Except.ok t => (Except.ok t, [model_pack, FALLBACK_MODEL])
      | Except.error e => (Except.error e, [model_pack, FALLBACK_MODEL])

/-- One `file_paths` entry: the format tag mapped to
`output_dir / base.with_suffix("." + fmt)` where `name` is the
normalized company name forming the final path component. -/
def export_entry (out_dir name fmt : List Char) : List Char × List Char :=
  (fmt, out_dir ++ "/".data ++ with_suffix name ('.' :: fmt))

/-- The export block of `generate_brochure` (brochure_generator.py
lines 305–316): for each of `"pdf"`, `"docx"`, `"html"` that is in
`fmts` (in that fixed order), run the renderer and record its entry;
a renderer exception propagates immediately, abandoning the remaining
formats and the already-produced entries. -/
def export_stage (env : Env) (company_name : List Char) (fmts : List (List Char))
    (out_dir : List Char) (text : List Char) :
    Except (List Char) (List (List Char × List Char)) :=
  match (if "pdf".data ∈ fmts then
      match env.render_pdf text env.branding.1 env.branding.2 with
      | Except.error e => Except.error e
      | Except.ok _ =>
        Except.ok [export_entry out_dir (normalize_name company_name) "pdf".data]
    else Except.ok []) with
  | Except.error e => Except.error e
  | Except.ok l1 =>
    match (if "docx".data ∈ fmts then
        match env.render_docx text with
        | Except.error e => Except.error e
        | Except.ok _ =>
          Except.ok (l1 ++ [export_entry out_dir (normalize_name company_name) "docx".data])
      else Except.ok l1) with
    | Except.error e => Except.error e
    | Except.ok l2 =>
      match (if "html".data ∈ fmts then
          match env.render_html text env.branding.1 env.branding.2 with
          | Except.error e => Except.error e
          | Except.ok _ =>
            Except.ok (l2 ++ [export_entry out_dir (normalize_name company_name) "html".data])
        else Except.ok l2) with
      | Except.error e => Except.error e
      | Except.ok l3 => Except.ok l3

/-- `generate_brochure` (brochure_generator.py lines 266–316).  Path
joining `output_dir / name` is embedded as `dir ++ "/" ++ name`, and
`base.with_suffix(".ext")` acts on the final component
`normalize_name company_name`, exactly as `PurePath.with_suffix` does
when the company name contains no path separator.  The single
`output_dir.mkdir(exist_ok=True)` call (on the given directory, or on
`BASE_DIR / "output"` when none is given) is recorded in `mkdir_dirs`. -/
def generate_brochure (env : Env) (company_name : List Char) (model_pack : ModelPack)
    (formats : Option (List (List Char))) (output_dir : Option (List Char))
    (precomputed_text : Option (List Char)) : GBOut :=
  match acquire_text env model_pack precomputed_text with
  | (Except.error e, attempts) =>
    ⟨Except.error e, attempts, [output_dir.getD (env.base_dir ++ "/output".data)]⟩
  | (Except.ok text, attempts) =>
    match export_stage env company_name (formats.getD default_formats)
        (output_dir.getD (env.base_dir ++ "/output".data)) text with
    | Except.error e =>
      ⟨Except.error e, attempts, [output_dir.getD (env.base_dir ++ "/output".data)]⟩
    | Except.ok fps =>
      ⟨Except.ok ⟨text, fps⟩, attempts, [output_dir.getD (env.base_dir ++ "/output".data)]⟩

/-- Python substring containment, `needle in hay`. -/
def containsSub : List Char → List Char → Bool
  | needle, [] => needle.isEmpty
  | needle, h :: t => needle.isPrefixOf (h :: t) || containsSub needle t

/-- `s.lower()` on an embedded string. -/
def lowerList (s : List Char) : List Char := s.map Char.toLower

/-- Python `a or b` on two optional strings, where `None` and `""` are
falsy: embeds `tag.get("src") or tag.get("href")`. -/
def pyOr (a b : Option (List Char)) : Option (List Char) :=
  match a with
  | some s => if s.isEmpty then b else some s
  | none => b

/-- One element of `soup.find_all(["img", "link"])`: its `src` and
`href` attributes (absent attributes are `none`). -/
structure Tag where
  src : Option (List Char)
  href : Option (List Char)
deriving DecidableEq, Repr

/-- The parsed page `extract_logo_and_color` works on: the `img`/`link`
tags in document order, and the text of each `style` tag in document
order. -/
structure BrandPage where
  tags : List Tag
  styles : List (List Char)
deriving DecidableEq, Repr

/-- The `src` value of the loop body, `tag.get("src") or tag.get("href")`. -/
def tagCandidate (t : Tag) : Option (List Char) := pyOr t.src t.href

/-- The loop condition
`if src and ("logo" in src.lower() or "icon" in src.lower())`. -/
def tagMatches (t : Tag) : Bool :=
  match tagCandidate t with
  | some s =>
    !s.isEmpty && (containsSub "logo".data (lowerList s) ||
      containsSub "icon".data (lowerList s))
  | none => false

/-- The logo-selection loop of `extract_logo_and_color`: the first
matching tag wins and its candidate is resolved with `urljoin`
(the external `urllib.parse.urljoin` is a parameter). -/
def findLogo (urljoin : List Char → List Char → List Char) (url : List Char) :
    List Tag → Option (List Char)
  | [] => none
  | t :: ts =>
    if tagMatches t then some (urljoin url ((tagCandidate t).getD []))
    else findLogo urljoin url ts

/-- A hexadecimal digit, the character class `[0-9A-Fa-f]`. -/
def isHexDigitChar (c : Char) : Bool :=
  c.isDigit || ('a' ≤ c && c ≤ 'f') || ('A' ≤ c && c ≤ 'F')

/-- `re.findall(r'#[0-9A-Fa-f]{6}', s)`: leftmost, non-overlapping
matches in order. -/
def findHexColors : List Char → List (List Char)
  | '#' :: a :: b :: c :: d :: e :: f :: rest =>
    if [a, b, c, d, e, f].all isHexDigitChar then
      ['#', a, b, c, d, e, f] :: findHexColors rest
    else findHexColors (a :: b :: c :: d :: e :: f :: rest)
  | _ :: rest => findHexColors rest
  | [] => []

/-- `extract_logo_and_color` (scraper.py lines 41–67).  The
`requests.get`/BeautifulSoup step is embedded as an `Except` input: a
`.error` input is any exception inside the `try` block, handled by the
bare `except` which returns `(None, "#000000")`.  On a parsed page the
first matching `img`/`link` tag gives the logo and the first regex match
over the concatenated per-style-tag match lists gives the color,
defaulting to `"#000000"`.  The function is total: it never raises. -/
def extract_logo_and_color (urljoin : List Char → List Char → List Char)
    (url : List Char) (page : Except (List Char) BrandPage) :
    Option (List Char) × List Char :=
  match page with
  | Except.error _ => (none, "#000000".data)
  | Except.ok p =>
    let logo := findLogo urljoin url p.tags
    let colors := p.styles.foldl (fun acc t => acc ++ findHexColors t) []
    let primary_color := colors.headD "#000000".data
    (logo, primary_color)

/-- The parsed page `fetch_website_contents` works on: the title-tag
string when a title tag exists, and the stripped body text
(`soup.body.get_text(separator="\n", strip=True)` after decomposing
script/style/img/input nodes) when a body exists. -/
structure Page where
  title : Option (List Char)
  bodyText : Option (List Char)
deriving DecidableEq, Repr

/-- `fetch_website_contents` (scraper.py lines 12–26): title (or the
`"No title found"` placeholder) joined to the body text with a blank
line, hard-truncated to 2000 characters. -/
def fetch_website_contents (page : Page) : List Char :=
  let title := page.title.getD "No title found".data
  let text := page.bodyText.getD []
  (title ++ "\n\n".data ++ text).take 2000

/-- One entry of the `"links"` array returned by
`select_relevant_links`: its `type` label and the text that
`fetch_website_contents` returns for its URL. -/
structure RelLink where
  ty : List Char
  contents : List Char
deriving DecidableEq, Repr

/-- `fetch_page_and_all_relevant_links` (brochure_generator.py lines
129–136), with the landing-page text and the selected links (each
already paired with its fetched text) as inputs. -/
def fetch_page_and_all_relevant_links (landing : List Char)
    (links : List RelLink) : List Char :=
  links.foldl
    (fun r l => r ++ "\n\n### Link: ".data ++ l.ty ++ "\n".data ++ l.contents)
    ("## Landing Page:\n\n".data ++ landing ++ "\n## Relevant Links:\n".data)

/-- `get_brochure_user_prompt` (brochure_generator.py lines 138–146):
the task-framing preamble naming the company, then the aggregated page
contents, truncated to 5000 characters by `user_prompt[:5_000]`. -/
def get_brochure_user_prompt (company_name : List Char) (landing : List Char)
    (links : List RelLink) : List Char :=
  (("\nYou are looking at a company called: ".data ++ company_name ++
      "\nHere are the contents of its landing page and other relevant pages;\nuse this information to build a short brochure of the company in markdown without code blocks.\n\n\n".data) ++
    fetch_page_and_all_relevant_links landing links).take 5000

/-- The accumulation loop of `stream_brochure_text`: `acc` is
`full_text`, the input list holds each chunk's `delta.content` (`none`
embeds Python `None`, mapped to `""` by `delta.content or ""`), and the
output collects the yielded values in order. -/
def streamYieldsAux (acc : List Char) : List (Option (List Char)) → List (List Char)
  | [] => []
  | d :: ds =>
    let part := d.getD []
    if part.isEmpty then streamYieldsAux acc ds
    else (acc ++ part) :: streamYieldsAux (acc ++ part) ds

/-- `stream_brochure_text` (brochure_generator.py lines 159–180),
as a function from the backend's delta sequence to the sequence of
yielded values. -/
def stream_brochure_text (deltas : List (Option (List Char))) : List (List Char) :=
  streamYieldsAux [] deltas

/-- The concatenation of all deltas of a stream (`none` contributing
nothing, as `delta.content or ""` does). -/
def deltasConcat (deltas : List (Option (List Char))) : List Char :=
  (deltas.map (fun d => d.getD [])).flatten

/-- A sample model pack from `FREE_MODELS` (the Groq entry), used to
instantiate theorems at concrete inputs. -/
def mpGroq : ModelPack := ⟨"openai/gpt-oss-120b".data, "groq".data⟩

/-- A concrete environment in which every external collaborator
succeeds: generation returns `"G"`, every renderer succeeds, branding
degrades to the defaults, and `BASE_DIR` is `/app`. -/
def envOk : Env :=
  ⟨fun _ => Except.ok "G".data, fun _ _ _ => Except.ok (), fun _ => Except.ok (),
   fun _ _ _ => Except.ok (), (none, "#000000".data), "/app".data⟩

/-- A concrete environment in which every `create_brochure_text` call
raises (message `"llm down"`) while everything else succeeds. -/
def envBothFail : Env :=
  ⟨fun _ => Except.error "llm down".data, fun _ _ _ => Except.ok (),
   fun _ => Except.ok (), fun _ _ _ => Except.ok (),
   (none, "#000000".data), "/app".data⟩

/-- A concrete environment in which the pdf renderer raises (message
`"pdf renderer failed"`) while the docx and html renderers succeed. -/
def envPdfFails : Env :=
  ⟨fun _ => Except.ok "G".data, fun _ _ _ => Except.error "pdf renderer failed".data,
   fun _ => Except.ok (), fun _ _ _ => Except.ok (),
   (none, "#000000".data), "/app".data⟩

/-- With `precomputed_text` supplied, text acquisition succeeds with
that text and performs no `create_brochure_text` call. -/
theorem acquire_text_pre (env : Env) (mp : ModelPack) (t : List Char) :
    acquire_text env mp (some t) = (Except.ok t, []) := rfl

/-- When every renderer succeeds, the export block returns one entry
per requested supported format, in the source's fixed pdf, docx, html
order. -/
theorem export_stage_ok (env : Env) (company : List Char) (fs : List (List Char))
    (dir text : List Char)
    (hp : ∀ t l c, env.render_pdf t l c = Except.ok ())
    (hd : ∀ t, env.render_docx t = Except.ok ())
    (hh : ∀ t l c, env.render_html t l c = Except.ok ()) :
    export_stage env company fs dir text =
      Except.ok ((default_formats.filter (fun f => decide (f ∈ fs))).map
        (export_entry dir (normalize_name company))) := by
  unfold export_stage
  by_cases h1 : "pdf".data ∈ fs <;> by_cases h2 : "docx".data ∈ fs <;>
    by_cases h3 : "html".data ∈ fs <;>
      simp [h1, h2, h3, hp, hd, hh, default_formats]

/-- The format tags of a list of export entries are the formats the
entries were built from. -/
theorem map_fst_export_entry (d n : List Char) (l : List (List Char)) :
    (l.map (export_entry d n)).map Prod.fst = l := by
  induction l with
  | nil => rfl
  | cons a t ih => simp [export_entry, ih]

/-- When every renderer succeeds, any successful `generate_brochure`
run maps exactly the requested supported formats (in pdf, docx, html
order) in its `file_paths`. -/
theorem generate_keys (env : Env) (company : List Char) (mp : ModelPack)
    (fopt : Option (List (List Char))) (dopt : Option (List Char))
    (pre : Option (List Char))
    (hp : ∀ t l c, env.render_pdf t l c = Except.ok ())
    (hd : ∀ t, env.render_docx t = Except.ok ())
    (hh : ∀ t l c, env.render_html t l c = Except.ok ()) :
    ∀ r, (generate_brochure env company mp fopt dopt pre).result = Except.ok r →
      r.file_paths.map Prod.fst =
        default_formats.filter (fun f => decide (f ∈ fopt.getD default_formats)) := by
  intro r hr
  unfold generate_brochure at hr
  rcases hacq : acquire_text env mp pre with ⟨tr, attempts⟩
  rw [hacq] at hr
  cases tr with
  | error e => simp at hr
  | ok text =>
    dsimp only at hr
    rw [export_stage_ok env company (fopt.getD default_formats)
      (dopt.getD (env.base_dir ++ "/output".data)) text hp hd hh] at hr
    dsimp only at hr
    cases hr
    exact map_fst_export_entry _ _ _

/-- C1: in a `generate_brochure` call without `precomputed_text`, if the
primary `create_brochure_text` call raises, exactly one retry is made
with `FALLBACK_MODEL`: the attempt trace is `[model_pack,
FALLBACK_MODEL]`, a fallback failure propagates its error to the caller
with no further retries, and a fallback success continues the pipeline
exactly as it would with the fallback's text. -/
theorem generate_brochure_fallback_once (env : Env) (company : List Char)
    (mp : ModelPack) (fopt : Option (List (List Char))) (dopt : Option (List Char))
    (e : List Char) (h : env.create_text mp = Except.error e) :
    (generate_brochure env company mp fopt dopt none).gen_attempts =
      [mp, FALLBACK_MODEL] ∧
    (∀ e2, env.create_text FALLBACK_MODEL = Except.error e2 →
      (generate_brochure env company mp fopt dopt none).result = Except.error e2) ∧
    (∀ t, env.create_text FALLBACK_MODEL = Except.ok t →
      (generate_brochure env company mp fopt dopt none).result =
        (generate_brochure env company mp fopt dopt (some t)).result) := by
  cases hf : env.create_text FALLBACK_MODEL with
  | error e2 =>
    have hacq : acquire_text env mp none = (Except.error e2, [mp, FALLBACK_MODEL]) := by
      unfold acquire_text; rw [h, hf]
    refine ⟨?_, ?_, ?_⟩
    · unfold generate_brochure; rw [hacq]
    · intro e3 hf3
      cases hf3
      unfold generate_brochure; rw [hacq]
    · intro t hft
      cases hft
  | ok t0 =>
    have hacq : acquire_text env mp none = (Except.ok t0, [mp, FALLBACK_MODEL]) := by
      unfold acquire_text; rw [h, hf]
    refine ⟨?_, ?_, ?_⟩
    · unfold generate_brochure; rw [hacq]
      dsimp only
      cases hex : export_stage env company (fopt.getD default_formats)
        (dopt.getD (env.base_dir ++ "/output".data)) t0 <;> rfl
    · intro e2 he
      cases he
    · intro t hft
      cases hft
      unfold generate_brochure
      rw [hacq, acquire_text_pre]
      dsimp only
      cases hex : export_stage env company (fopt.getD default_formats)
        (dopt.getD (env.base_dir ++ "/output".data)) t0 <;> rfl

/-- C1 witness: with both the primary and the fallback generation call
failing with message `"llm down"`, the run attempts exactly
`[mpGroq, FALLBACK_MODEL]` and propagates the fallback's error. -/
theorem generate_brochure_fallback_once_witness :
    (generate_brochure envBothFail "Acme".data mpGroq none none none).gen_attempts =
      [mpGroq, FALLBACK_MODEL] ∧
    (generate_brochure envBothFail "Acme".data mpGroq none none none).result =
      Except.error "llm down".data := by
  have h := generate_brochure_fallback_once envBothFail "Acme".data mpGroq
    none none "llm down".data rfl
  exact ⟨h.1, h.2.1 "llm down".data rfl⟩

/-- C2: with `precomputed_text` supplied, `generate_brochure` makes no
`create_brochure_text` call (hence no `llm_chat` call, since every
`llm_chat` call in the pipeline is inside `create_brochure_text`), and
any returned text is the precomputed text verbatim. -/
theorem generate_brochure_precomputed_skips_llm (env : Env) (company : List Char)
    (mp : ModelPack) (fopt : Option (List (List Char))) (dopt : Option (List Char))
    (t : List Char) :
    (generate_brochure env company mp fopt dopt (some t)).gen_attempts = [] ∧
    ∀ r, (generate_brochure env company mp fopt dopt (some t)).result = Except.ok r →
      r.text = t := by
  constructor
  · unfold generate_brochure
    rw [acquire_text_pre]
    dsimp only
    cases hex : export_stage env company (fopt.getD default_formats)
      (dopt.getD (env.base_dir ++ "/output".data)) t <;> rfl
  · intro r hr
    unfold generate_brochure at hr
    rw [acquire_text_pre] at hr
    dsimp only at hr
    cases hex : export_stage env company (fopt.getD default_formats)
      (dopt.getD (env.base_dir ++ "/output".data)) t with
    | error e => rw [hex] at hr; simp at hr
    | ok fps =>
      rw [hex] at hr
      dsimp only at hr
      cases hr
      rfl

/-- C2 witness: a concrete run with `precomputed_text = "T"` and an
empty format list makes zero generation attempts and returns `"T"`. -/
theorem generate_brochure_precomputed_skips_llm_witness :
    (generate_brochure envOk "Acme".data mpGroq (some []) (some "/out".data)
      (some "T".data)).gen_attempts = [] ∧
    (GBResult.mk "T".data []).text = "T".data := by
  have h := generate_brochure_precomputed_skips_llm envOk "Acme".data mpGroq
    (some []) (some "/out".data) "T".data
  exact ⟨h.1, h.2 ⟨"T".data, []⟩ (by decide)⟩

/-- C3 counterexample: with all three formats requested and the pdf
renderer raising, `generate_brochure` propagates the exception, so the
run returns no `ExportResult` at all — the docx and html renderers are
never reached and no partial result or separate error report is
produced, contrary to the claimed per-format isolation. -/
theorem generate_brochure_renderer_failure_aborts :
    (generate_brochure envPdfFails "Acme".data mpGroq
      (some default_formats) (some "/out".data) (some "T".data)).result =
      Except.error "pdf renderer failed".data := by decide

/-- C3 (amended): when every requested renderer succeeds, the returned
`ExportResult` contains exactly the requested format keys; when a
renderer raises, the exception propagates and aborts the whole export,
so no `ExportResult` (not even a partial one) is returned. -/
theorem generate_brochure_exportresult_keys (env : Env) (company : List Char)
    (mp : ModelPack) (fs : List (List Char)) (dopt : Option (List Char))
    (pre : Option (List Char))
    (hp : ∀ t l c, env.render_pdf t l c = Except.ok ())
    (hd : ∀ t, env.render_docx t = Except.ok ())
    (hh : ∀ t l c, env.render_html t l c = Except.ok ()) :
    ∀ r, (generate_brochure env company mp (some fs) dopt pre).result = Except.ok r →
      r.file_paths.map Prod.fst = default_formats.filter (fun f => decide (f ∈ fs)) :=
  generate_keys env company mp (some fs) dopt pre hp hd hh

/-- C3 witness: a concrete successful run requesting only docx yields
exactly the docx key. -/
theorem generate_brochure_exportresult_keys_witness :
    (GBResult.mk "T".data [("docx".data, "/out/acme.docx".data)]).file_paths.map
      Prod.fst = default_formats.filter (fun f => decide (f ∈ [("docx".data : List Char)])) :=
  generate_brochure_exportresult_keys envOk "Acme".data mpGroq ["docx".data]
    (some "/out".data) (some "T".data) (fun _ _ _ => rfl) (fun _ => rfl)
    (fun _ _ _ => rfl) ⟨"T".data, [("docx".data, "/out/acme.docx".data)]⟩ (by decide)

/-- A name with no dot-suffix gains the new suffix by plain
concatenation under `with_suffix`. -/
theorem with_suffix_of_no_suffix (n : List Char) (h : path_suffix n = [])
    (s : List Char) : with_suffix n s = n ++ s := by
  simp [with_suffix, h]

/-- C9 counterexample: for `company_name = "Acme 2.0"` the normalized
name is `acme_2.0`, but `Path.with_suffix` replaces its `.0` suffix, so
the pdf entry is `/out/acme_2.pdf`, not
`<normalized-company-name>.<ext> = /out/acme_2.0.pdf`. -/
theorem generate_brochure_naming_dot_counterexample :
    (generate_brochure envOk "Acme 2.0".data mpGroq (some ["pdf".data])
      (some "/out".data) (some "T".data)).result =
      Except.ok ⟨"T".data, [("pdf".data, "/out/acme_2.pdf".data)]⟩ ∧
    "/out/acme_2.pdf".data ≠
      "/out/".data ++ normalize_name "Acme 2.0".data ++ ".pdf".data := by decide

/-- C9 (amended): file naming is deterministic and derived from the
lowercased, space-to-underscore company name, one file per requested
format, but the extension is attached with `Path.with_suffix`
semantics, which replaces an existing dot-suffix of the normalized
name; whenever the normalized name has no dot-suffix, each entry is
exactly `<normalized-company-name>.<ext>` in the output directory. -/
theorem generate_brochure_file_naming (env : Env) (company : List Char)
    (mp : ModelPack) (fs : List (List Char)) (dir : List Char) (t : List Char)
    (hsuf : path_suffix (normalize_name company) = [])
    (hp : ∀ t l c, env.render_pdf t l c = Except.ok ())
    (hd : ∀ t, env.render_docx t = Except.ok ())
    (hh : ∀ t l c, env.render_html t l c = Except.ok ()) :
    (generate_brochure env company mp (some fs) (some dir) (some t)).result =
      Except.ok ⟨t, (default_formats.filter (fun f => decide (f ∈ fs))).map
        (fun fmt => (fmt, dir ++ "/".data ++ normalize_name company ++ '.' :: fmt))⟩ := by
  unfold generate_brochure
  rw [acquire_text_pre]
  dsimp only
  simp only [Option.getD_some]
  rw [export_stage_ok env company fs dir t hp hd hh]
  refine congrArg Except.ok (congrArg (GBResult.mk t) ?_)
  apply List.map_congr_left
  intro fmt _
  simp [export_entry, with_suffix_of_no_suffix _ hsuf]

/-- C9 witness: a concrete run for `"Acme Inc"` (normalized
`acme_inc`, no dot-suffix) with pdf and html requested. -/
theorem generate_brochure_file_naming_witness :
    (generate_brochure envOk "Acme Inc".data mpGroq
      (some ["pdf".data, "html".data]) (some "/out".data) (some "B".data)).result =
      Except.ok ⟨"B".data, (default_formats.filter
        (fun f => decide (f ∈ [("pdf".data : List Char), "html".data]))).map
        (fun fmt => (fmt, "/out".data ++ "/".data ++
          normalize_name "Acme Inc".data ++ '.' :: fmt))⟩ :=
  generate_brochure_file_naming envOk "Acme Inc".data mpGroq
    ["pdf".data, "html".data] "/out".data "B".data (by decide)
    (fun _ _ _ => rfl) (fun _ => rfl) (fun _ _ _ => rfl)

/-- C10: with `formats = None` all three renderers are invoked and the
returned `ExportResult` has exactly the keys pdf, docx and html (in
that order); with `output_dir = None` the single
`mkdir(exist_ok=True)` call targets the default directory
`BASE_DIR/output`, creating it when absent. -/
theorem generate_brochure_defaults (env : Env) (company : List Char)
    (mp : ModelPack) (pre : Option (List Char))
    (hp : ∀ t l c, env.render_pdf t l c = Except.ok ())
    (hd : ∀ t, env.render_docx t = Except.ok ())
    (hh : ∀ t l c, env.render_html t l c = Except.ok ()) :
    (generate_brochure env company mp none none pre).mkdir_dirs =
      [env.base_dir ++ "/output".data] ∧
    ∀ r, (generate_brochure env company mp none none pre).result = Except.ok r →
      r.file_paths.map Prod.fst = default_formats := by
  constructor
  · unfold generate_brochure
    split
    · rfl
    · split <;> rfl
  · intro r hr
    have h := generate_keys env company mp none none pre hp hd hh r hr
    have hfil : default_formats.filter
        (fun f => decide (f ∈ (none : Option (List (List Char))).getD default_formats)) =
        default_formats := by decide
    rw [hfil] at h
    exact h

/-- C10 witness: a concrete run with default formats and default
output directory produces all three entries under
`BASE_DIR/output`. -/
theorem generate_brochure_defaults_witness :
    (generate_brochure envOk "Acme".data mpGroq none none (some "T".data)).mkdir_dirs =
      [envOk.base_dir ++ "/output".data] ∧
    (GBResult.mk "T".data
      [("pdf".data, "/app/output/acme.pdf".data),
       ("docx".data, "/app/output/acme.docx".data),
       ("html".data, "/app/output/acme.html".data)]).file_paths.map Prod.fst =
      default_formats := by
  have h := generate_brochure_defaults envOk "Acme".data mpGroq (some "T".data)
    (fun _ _ _ => rfl) (fun _ => rfl) (fun _ _ _ => rfl)
  exact ⟨h.1, h.2 _ (by decide)⟩

/-- The logo-selection loop finds nothing when no tag satisfies the
source's matching condition. -/
theorem findLogo_none (urljoin : List Char → List Char → List Char)
    (url : List Char) :
    ∀ tags, (∀ t ∈ tags, tagMatches t = false) →
      findLogo urljoin url tags = none := by
  intro tags h
  induction tags with
  | nil => rfl
  | cons a ts ih =>
    have ha := h a (List.mem_cons_self a ts)
    rw [findLogo, if_neg (by simp [ha])]
    exact ih fun t ht => h t (List.mem_cons_of_mem a ht)

/-- The color-collection fold collects nothing when every style block
has no hex-color match. -/
theorem colors_fold_nil :
    ∀ styles : List (List Char), (∀ s ∈ styles, findHexColors s = []) →
      ∀ acc, styles.foldl (fun acc t => acc ++ findHexColors t) acc = acc := by
  intro styles h
  induction styles with
  | nil => intro acc; rfl
  | cons a ts ih =>
    intro acc
    have ha := h a (List.mem_cons_self a ts)
    rw [List.foldl_cons, ha, List.append_nil]
    exact ih (fun t ht => h t (List.mem_cons_of_mem a ht)) acc

/-- C4: `extract_logo_and_color` is a total function of its inputs —
it never raises.  On any internal failure (an exceptional fetch/parse,
the `.error` input) it returns `(None, "#000000")`, and on a parsed
page in which no `img`/`link` tag has a src/href that is a non-empty
string containing `"logo"` or `"icon"` case-insensitively, and no style
block matches the 6-hex-digit color pattern, it also returns
`(None, "#000000")`. -/
theorem extract_logo_and_color_default
    (urljoin : List Char → List Char → List Char) (url : List Char)
    (page : Except (List Char) BrandPage) :
    (∀ e, page = Except.error e →
      extract_logo_and_color urljoin url page = (none, "#000000".data)) ∧
    (∀ p, page = Except.ok p →
      (∀ t ∈ p.tags, tagMatches t = false) →
      (∀ s ∈ p.styles, findHexColors s = []) →
      extract_logo_and_color urljoin url page = (none, "#000000".data)) := by
  constructor
  · intro e he
    subst he
    rfl
  · intro p hp hT hS
    subst hp
    unfold extract_logo_and_color
    dsimp only
    rw [findLogo_none urljoin url p.tags hT, colors_fold_nil p.styles hS []]
    rfl

/-- C4 witness: a page whose tags carry no logo/icon marker and whose
single style block has no 6-hex-digit literal degrades to the
defaults. -/
theorem extract_logo_and_color_default_witness :
    extract_logo_and_color (fun _ s => s) "https://x.test".data
      (Except.ok ⟨[⟨some "banner.png".data, none⟩, ⟨none, some "/style.css".data⟩],
        ["body: color red; background: #12".data]⟩) =
      (none, "#000000".data) :=
  (extract_logo_and_color_default (fun _ s => s) "https://x.test".data
      (Except.ok ⟨[⟨some "banner.png".data, none⟩, ⟨none, some "/style.css".data⟩],
        ["body: color red; background: #12".data]⟩)).2
    ⟨[⟨some "banner.png".data, none⟩, ⟨none, some "/style.css".data⟩],
      ["body: color red; background: #12".data]⟩
    rfl (by decide) (by decide)

/-- C6: the string returned by `fetch_website_contents` is at most
2000 characters (the `[:2_000]` hard cut of title plus body text), and
when the page has no title the non-empty placeholder
`"No title found"` opens the result. -/
theorem fetch_website_contents_cap (page : Page) :
    (fetch_website_contents page).length ≤ 2000 ∧
    (page.title = none → "No title found".data <+: fetch_website_contents page) := by
  constructor
  · unfold fetch_website_contents
    simp [List.length_take]
  · intro h
    unfold fetch_website_contents
    rw [h]
    dsimp only [Option.getD]
    rw [List.append_assoc, List.take_append_eq_append_take,
      List.take_of_length_le (by decide)]
    exact List.prefix_append _ _

/-- C6 witness: a page with no title and body `"hello"` is capped and
opens with the placeholder. -/
theorem fetch_website_contents_cap_witness :
    (fetch_website_contents ⟨none, some "hello".data⟩).length ≤ 2000 ∧
    "No title found".data <+: fetch_website_contents ⟨none, some "hello".data⟩ :=
  ⟨(fetch_website_contents_cap ⟨none, some "hello".data⟩).1,
   (fetch_website_contents_cap ⟨none, some "hello".data⟩).2 rfl⟩

/-- C7: the prompt built by `get_brochure_user_prompt` is at most 5000
characters for every company name, landing-page text and list of
relevant links — the `[:5_000]` truncation applies to the final
concatenated string. -/
theorem get_brochure_user_prompt_cap (company_name landing : List Char)
    (links : List RelLink) :
    (get_brochure_user_prompt company_name landing links).length ≤ 5000 := by
  unfold get_brochure_user_prompt
  rw [List.length_take]
  exact Nat.min_le_left _ _

/-- From any accumulator, the yields of the streaming loop form a
strict prefix-extension chain, with the accumulator itself prefixing
the first yield. -/
theorem streamYieldsAux_chain :
    ∀ (ds : List (Option (List Char))) (acc : List Char),
      List.Chain' (fun a b => a <+: b ∧ a ≠ b) (acc :: streamYieldsAux acc ds) := by
  intro ds
  induction ds with
  | nil => intro acc; exact List.chain'_singleton _
  | cons d ds ih =>
    intro acc
    unfold streamYieldsAux
    dsimp only
    by_cases h : (d.getD []).isEmpty = true
    · rw [if_pos h]
      exact ih acc
    · rw [if_neg h]
      refine List.chain'_cons.mpr ⟨⟨List.prefix_append _ _, ?_⟩, ih (acc ++ d.getD [])⟩
      intro hEq
      have hlen := congrArg List.length hEq
      rw [List.length_append] at hlen
      have h0 : (d.getD []).length = 0 := by omega
      exact h (List.isEmpty_iff.mpr (List.length_eq_zero.mp h0))

/-- The streaming loop yields once per non-empty delta and never on an
empty delta, from any accumulator. -/
theorem streamYieldsAux_length :
    ∀ (ds : List (Option (List Char))) (acc : List Char),
      (streamYieldsAux acc ds).length = ds.countP (fun d => !(d.getD []).isEmpty) := by
  intro ds
  induction ds with
  | nil => intro acc; rfl
  | cons d ds ih =>
    intro acc
    unfold streamYieldsAux
    dsimp only
    by_cases h : (d.getD []).isEmpty = true
    · rw [if_pos h, ih acc, List.countP_cons]
      simp [h]
    · have h' : (d.getD []).isEmpty = false := by simpa using h
      rw [if_neg h, List.length_cons, ih (acc ++ d.getD []), List.countP_cons]
      simp [h']

/-- A delta list with no non-empty delta concatenates to the empty
string. -/
theorem deltasConcat_eq_nil :
    ∀ ds : List (Option (List Char)),
      ds.any (fun d => !(d.getD []).isEmpty) = false → deltasConcat ds = [] := by
  intro ds
  induction ds with
  | nil => intro _; rfl
  | cons d t ih =>
    intro h
    rw [List.any_cons, Bool.or_eq_false_iff] at h
    obtain ⟨h1, h2⟩ := h
    have hd0 : d.getD [] = [] := List.isEmpty_iff.mp (by simpa using h1)
    unfold deltasConcat
    rw [List.map_cons, List.flatten_cons, hd0, List.nil_append]
    exact ih h2

/-- From any accumulator, the last yield of the streaming loop is the
accumulator extended by the concatenation of all deltas — provided some
delta is non-empty; with only empty deltas nothing is ever yielded. -/
theorem streamYieldsAux_getLast :
    ∀ (ds : List (Option (List Char))) (acc : List Char),
      (streamYieldsAux acc ds).getLast? =
        if ds.any (fun d => !(d.getD []).isEmpty) then some (acc ++ deltasConcat ds)
        else none := by
  intro ds
  induction ds with
  | nil => intro acc; rfl
  | cons d ds ih =>
    intro acc
    unfold streamYieldsAux
    dsimp only
    by_cases h : (d.getD []).isEmpty = true
    · have hd0 : d.getD [] = [] := List.isEmpty_iff.mp h
      rw [if_pos h, ih acc, List.any_cons,
        show (!(d.getD []).isEmpty) = false by simp [h], Bool.false_or]
      unfold deltasConcat
      rw [List.map_cons, List.flatten_cons, hd0, List.nil_append]
    · have h' : (d.getD []).isEmpty = false := by simpa using h
      rw [if_neg h]
      cases hany : ds.any (fun d => !(d.getD []).isEmpty) with
      | false =>
        have hrest : streamYieldsAux (acc ++ d.getD []) ds = [] := by
          have hx := ih (acc ++ d.getD [])
          rw [hany, if_neg (by simp)] at hx
          exact List.getLast?_eq_none_iff.mp hx
        rw [hrest, List.getLast?_singleton, List.any_cons, hany, h']
        have hcds : deltasConcat ds = [] := deltasConcat_eq_nil ds hany
        unfold deltasConcat
        rw [List.map_cons, List.flatten_cons]
        have : (List.map (fun d => d.getD []) ds).flatten = [] := hcds
        rw [this, List.append_nil]
        rfl
      | true =>
        have hx := ih (acc ++ d.getD [])
        rw [hany, if_pos rfl] at hx
        have hne : streamYieldsAux (acc ++ d.getD []) ds ≠ [] := by
          intro h0
          rw [h0] at hx
          simp at hx
        cases hrest : streamYieldsAux (acc ++ d.getD []) ds with
        | nil => exact absurd hrest hne
        | cons y ys =>
          rw [List.getLast?_cons_cons, ← hrest, hx, List.any_cons, hany, Bool.or_true,
            if_pos rfl]
          unfold deltasConcat
          rw [List.map_cons, List.flatten_cons, List.append_assoc]

/-- C5: the yields of `stream_brochure_text` are strictly increasing
under the prefix order (each yield is a strict prefix-extension of the
previous one); a yield occurs exactly once per non-empty delta and
never on an empty delta (the yield count equals the non-empty delta
count); and the final yielded value is the complete brochure text, the
concatenation of all deltas — when any non-empty delta exists, there
being no yield at all otherwise. -/
theorem stream_brochure_text_monotone (deltas : List (Option (List Char))) :
    List.Chain' (fun a b => a <+: b ∧ a ≠ b) (stream_brochure_text deltas) ∧
    (stream_brochure_text deltas).length =
      deltas.countP (fun d => !(d.getD []).isEmpty) ∧
    (stream_brochure_text deltas).getLast? =
      (if deltas.any (fun d => !(d.getD []).isEmpty) then some (deltasConcat deltas)
       else none) := by
  refine ⟨(streamYieldsAux_chain deltas []).tail, streamYieldsAux_length deltas [], ?_⟩
  have h := streamYieldsAux_getLast deltas []
  rw [List.nil_append] at h
  exact h
